import Mathlib

/-!
Verification of the log-inspection backend (`src/app/views.py`).

Strings are modelled as `List Char` (`Str`).  Python's `str.strip`,
`str.replace`, substring tests, truthiness and `re.sub` are embedded as
executable Lean functions.  The stateful parts (filesystem, directory
existence, the optional kubectl fetch, the Django cache with TTL
semantics and the wall clock) are modelled as an explicit state record
`St`; `get_pod_logs` and `get_pods` are state transformers over it.
Wall-clock formatting (`datetime.strftime`) is abstracted as an
environment-provided formatter `Nat → Str`, since no verified property
depends on the textual shape of a timestamp.
-/

set_option maxHeartbeats 1000000
set_option maxRecDepth 2000

abbrev Str := List Char

/-- The whitespace class removed by Python's `str.strip()`. -/
def isPySpace (c : Char) : Bool :=
  c == ' ' || c == '\t' || c == '\n' || c == '\r' || c == '\x0b' || c == '\x0c'

/-- Python `value.strip()`: drop leading and trailing whitespace. -/
def pyStrip (s : Str) : Str :=
  ((s.dropWhile isPySpace).reverse.dropWhile isPySpace).reverse

/-- The characters kept by `re.sub(r'[^a-zA-Z0-9_\-]', '_', ...)`. -/
def validCharB (c : Char) : Bool := c.isAlphanum || c == '_' || c == '-'

/-- `sanitize_filename` (views.py:28): falsy input gives `"unknown"`,
otherwise every character outside `[a-zA-Z0-9_-]` becomes `'_'`. -/
def sanitize_filename (v : Str) : Str :=
  if v.isEmpty then "unknown".toList
  else v.map (fun c => if validCharB c then c else '_')

/-- Worker for `replaceAll`: scan left to right; `skip` counts
characters of an already-emitted occurrence still to be consumed. -/
def replaceAllGo (pat rep : Str) : Str → Nat → Str
  | [], _ => []
  | _ :: t, skip + 1 => replaceAllGo pat rep t skip
  | c :: t, 0 =>
    if pat.isPrefixOf (c :: t) then rep ++ replaceAllGo pat rep t (pat.length - 1)
    else c :: replaceAllGo pat rep t 0

/-- Python `str.replace`: replace every non-overlapping occurrence of
`pat` with `rep`, scanning left to right (see `replaceAll_cons`). -/
def replaceAll (pat rep s : Str) : Str := replaceAllGo pat rep s 0

/-- A pod descriptor as served by `get_pods`. -/
structure Pod where
  name : Str
  display_name : Str
deriving DecidableEq

/-- `generate_sample_pods` (views.py:162): the fixed six-entry fallback
set, with display names rewriting the demo suffixes. -/
def generate_sample_pods (app bundle : Str) : List Pod :=
  let sa := sanitize_filename app
  let sb := sanitize_filename bundle
  let basePods : List Str :=
    [ sa ++ "-".toList ++ sb ++ "-web-001".toList
    , sa ++ "-".toList ++ sb ++ "-web-002".toList
    , sa ++ "-".toList ++ sb ++ "-api-001".toList
    , sa ++ "-".toList ++ sb ++ "-worker-001".toList
    , sa ++ "-".toList ++ sb ++ "-error-pod".toList
    , sa ++ "-".toList ++ sb ++ "-warn-service".toList ]
  basePods.map (fun p =>
    { name := p
      display_name :=
        replaceAll "-warn-service".toList " (Warning Demo)".toList
          (replaceAll "-error-pod".toList " (Error Demo)".toList
            (replaceAll "_".toList "-".toList p)) })

/-- The placeholder strings rejected by `summarize_logs`/`analyze_logs`. -/
def waitingPh : Str := "Waiting for execution...".toList

def fetchingPh : Str := "Fetching pod logs...".toList

/-- The truncation marker appended when input exceeds 8000 characters. -/
def truncMarker : Str := "\n... (truncated for analysis)".toList

/-- The length guard shared by `summarize_logs` and `analyze_logs`
(views.py:417, views.py:492). -/
def truncateLog (t : Str) : Str :=
  if 8000 < t.length then t.take 8000 ++ truncMarker else t

/-- Outcome of the input-handling stage of `summarize_logs` /
`analyze_logs`: either the fixed early reply, or the log text that gets
embedded into the request sent to the external text-analysis service. -/
inductive AnalysisStep where
  | rejected (msg : Str)
  | dispatched (logText : Str)
deriving DecidableEq

/-- `summarize_logs` input handling (views.py:410-419). -/
def summarize_logs (raw : Str) : AnalysisStep :=
  let t := pyStrip raw
  if t.isEmpty || t == waitingPh || t == fetchingPh then
    AnalysisStep.rejected "❌ No logs available to summarize.".toList
  else AnalysisStep.dispatched (truncateLog t)

/-- `analyze_logs` input handling (views.py:485-494). -/
def analyze_logs (raw : Str) : AnalysisStep :=
  let t := pyStrip raw
  if t.isEmpty || t == waitingPh || t == fetchingPh then
    AnalysisStep.rejected "❌ No logs available for root cause analysis.".toList
  else AnalysisStep.dispatched (truncateLog t)

/-- Lowercasing used by the `... in pod.lower()` checks. -/
def lowerStr (s : Str) : Str := s.map Char.toLower

/-- Python's substring test `needle in hay`, as a boolean. -/
def containsSub (needle hay : Str) : Bool := decide (needle <:+: hay)

/-- One synthesized log line: `[{ts}] {lvl}: {msg}` before rendering. -/
structure LogLine where
  ts : Str
  lvl : Str
  msg : Str
deriving DecidableEq

/-- Startup preamble of `auto_generate_pod_logs` (views.py:909-915);
`fmt` is the environment's timestamp formatter, `base` the base time. -/
def startupLines (fmt : Nat → Str) (base : Nat) (app cluster bundle pod : Str) :
    List LogLine :=
  [ ⟨fmt base, "INFO".toList, "Starting pod ".toList ++ pod⟩
  , ⟨fmt (base + 1), "INFO".toList, "Application: ".toList ++ app⟩
  , ⟨fmt (base + 2), "INFO".toList, "Cluster: ".toList ++ cluster⟩
  , ⟨fmt (base + 3), "INFO".toList, "Bundle: ".toList ++ bundle⟩
  , ⟨fmt (base + 4), "INFO".toList, "Namespace: ".toList ++ bundle⟩
  , ⟨fmt (base + 5), "INFO".toList, "Container image: ".toList ++ app ++ ":latest".toList⟩
  , ⟨fmt (base + 6), "INFO".toList, "Initializing container environment...".toList⟩ ]

/-- Service-specific startup section (views.py:918-947), branching on
substrings of the lowercased pod name. -/
def serviceLines (fmt : Nat → Str) (base : Nat) (pod : Str) : List LogLine :=
  if ["web".toList, "frontend".toList, "nginx".toList, "ui".toList].any
      (fun x => containsSub x (lowerStr pod)) then
    [ ⟨fmt (base + 8), "INFO".toList, "Starting HTTP server on port 8080".toList⟩
    , ⟨fmt (base + 10), "INFO".toList, "Loading static assets and configurations".toList⟩
    , ⟨fmt (base + 12), "INFO".toList, "Registering routes and middleware".toList⟩
    , ⟨fmt (base + 15), "INFO".toList, "Web server ready - accepting connections".toList⟩ ]
  else if ["api".toList, "service".toList, "gateway".toList].any
      (fun x => containsSub x (lowerStr pod)) then
    [ ⟨fmt (base + 8), "INFO".toList, "Loading API configuration".toList⟩
    , ⟨fmt (base + 9), "INFO".toList, "Connecting to database...".toList⟩
    , ⟨fmt (base + 11), "INFO".toList, "Database connection established".toList⟩
    , ⟨fmt (base + 13), "INFO".toList, "Registering API endpoints".toList⟩
    , ⟨fmt (base + 15), "INFO".toList, "API server ready on port 3000".toList⟩ ]
  else if ["worker".toList, "processor".toList, "job".toList].any
      (fun x => containsSub x (lowerStr pod)) then
    [ ⟨fmt (base + 8), "INFO".toList, "Connecting to message queue".toList⟩
    , ⟨fmt (base + 10), "INFO".toList, "Registering job handlers".toList⟩
    , ⟨fmt (base + 12), "INFO".toList, "Starting worker processes".toList⟩
    , ⟨fmt (base + 15), "INFO".toList, "Worker ready to process jobs".toList⟩ ]
  else
    [ ⟨fmt (base + 8), "INFO".toList, "Loading service configuration".toList⟩
    , ⟨fmt (base + 10), "INFO".toList, "Initializing service components".toList⟩
    , ⟨fmt (base + 12), "INFO".toList, "Service health check passed".toList⟩
    , ⟨fmt (base + 15), "INFO".toList, "Service ready and operational".toList⟩ ]

/-- Operational-activity section (views.py:952-987): error narrative,
warning narrative or healthy steady state, chosen by lowercased-name
substring. `ct` is `current_time`. -/
def operationalLines (fmt : Nat → Str) (ct : Nat) (pod : Str) : List LogLine :=
  if containsSub "error".toList (lowerStr pod) then
    [ ⟨fmt ct, "INFO".toList, "Processing incoming requests...".toList⟩
    , ⟨fmt (ct + 30), "WARN".toList, "High memory usage detected: 85%".toList⟩
    , ⟨fmt (ct + 60), "ERROR".toList, "Database connection timeout after 30s".toList⟩
    , ⟨fmt (ct + 90), "ERROR".toList, "Failed to process request: connection refused".toList⟩
    , ⟨fmt (ct + 120), "WARN".toList, "Retrying database connection (attempt 1/3)".toList⟩
    , ⟨fmt (ct + 150), "ERROR".toList, "Authentication failed: invalid credentials".toList⟩
    , ⟨fmt (ct + 180), "FATAL".toList, "Critical error - service unavailable".toList⟩
    , ⟨fmt (ct + 200), "ERROR".toList, "Container exit code: 1".toList⟩ ]
  else if containsSub "warn".toList (lowerStr pod) then
    [ ⟨fmt ct, "INFO".toList, "Service operational - processing requests".toList⟩
    , ⟨fmt (ct + 45), "WARN".toList, "High CPU usage detected: 78%".toList⟩
    , ⟨fmt (ct + 90), "WARN".toList, "Response time degradation: 2.8s (SLA: 1s)".toList⟩
    , ⟨fmt (ct + 135), "ERROR".toList, "Failed to send notification: SMTP timeout".toList⟩
    , ⟨fmt (ct + 180), "WARN".toList, "Queue backlog growing: 150 pending items".toList⟩
    , ⟨fmt (ct + 225), "INFO".toList, "Auto-scaling triggered - adding 2 replicas".toList⟩
    , ⟨fmt (ct + 270), "WARN".toList, "Memory usage approaching limit: 92%".toList⟩
    , ⟨fmt (ct + 315), "INFO".toList, "Performance stabilized after scaling".toList⟩ ]
  else
    [ ⟨fmt ct, "INFO".toList, "Service running normally".toList⟩
    , ⟨fmt (ct + 60), "INFO".toList, "Processed 250 requests in last minute".toList⟩
    , ⟨fmt (ct + 120), "INFO".toList, "Health check passed - all systems green".toList⟩
    , ⟨fmt (ct + 180), "INFO".toList, "Database queries avg response: 45ms".toList⟩
    , ⟨fmt (ct + 240), "INFO".toList, "Cache hit ratio: 94.2%".toList⟩
    , ⟨fmt (ct + 300), "INFO".toList, "Background job completed successfully".toList⟩
    , ⟨fmt (ct + 360), "INFO".toList, "Memory usage: 45% - optimal range".toList⟩
    , ⟨fmt (ct + 420), "INFO".toList, "Request throughput: 4.2 req/sec".toList⟩ ]

/-- Recent-activity footer (views.py:989-998).  Note: the resource
figures branch on `'error' in pod` on the RAW (not lowercased) name. -/
def footerLines (fmt : Nat → Str) (rt : Nat) (pod : Str) : List LogLine :=
  [ ⟨fmt rt, "INFO".toList, "=== Recent Activity Summary ===".toList⟩
  , ⟨fmt (rt + 1), "INFO".toList, "Uptime: 1h 28m 15s".toList⟩
  , ⟨fmt (rt + 2), "INFO".toList, "Total requests processed: 15,240".toList⟩
  , ⟨fmt (rt + 3), "INFO".toList,
      "Current memory usage: ".toList ++
        (if containsSub "error".toList pod then "95".toList else "45".toList) ++ "%".toList⟩
  , ⟨fmt (rt + 4), "INFO".toList,
      "Current CPU usage: ".toList ++
        (if containsSub "error".toList pod then "98".toList else "25".toList) ++ "%".toList⟩
  , ⟨fmt (rt + 5), "INFO".toList, "Network I/O: 2.1 MB/s in, 3.4 MB/s out".toList⟩ ]

/-- All lines of `auto_generate_pod_logs`, in append order; base time is
`now - 1h30m`, `current_time` is `base + 20s`, `recent_time` is
`now - 2min`. -/
def podLogLines (fmt : Nat → Str) (now : Nat) (app cluster bundle pod : Str) :
    List LogLine :=
  startupLines fmt (now - 5400) app cluster bundle pod ++
    serviceLines fmt (now - 5400) pod ++
    operationalLines fmt (now - 5400 + 20) pod ++
    footerLines fmt (now - 120) pod

/-- Rendering of one line: `[{ts}] {lvl}: {msg}`. -/
def renderLine (l : LogLine) : Str :=
  "[".toList ++ l.ts ++ "] ".toList ++ l.lvl ++ ": ".toList ++ l.msg

/-- `auto_generate_pod_logs` (views.py:899-1000): "\n".join(logs). -/
def auto_generate_pod_logs (fmt : Nat → Str) (now : Nat)
    (app cluster bundle pod : Str) : Str :=
  List.intercalate "\n".toList
    ((podLogLines fmt now app cluster bundle pod).map renderLine)

/-- Result of reading one file: decodable text, or a decode failure
(the `UnicodeDecodeError` branch of the search loop). -/
inductive FileRead where
  | content (s : Str)
  | undecodable
deriving DecidableEq

/-- Environment and mutable state seen by the views: the filesystem
(`os.path.exists`/`open` on files), directory existence, the optional
kubectl fetch outcome (`None` covers every failure mode of
`fetch_kubernetes_logs`), timestamp and date formatters for the wall
clock, the two cache namespaces (value plus absolute expiry), and the
optional parsed `pods_config.json` lookup. -/
structure St where
  fs : Str → Option FileRead
  dirExists : Str → Bool
  kubectl : Option Str
  fmtDT : Nat → Str
  dateFor : Nat → Str
  cacheLogs : List (Str × Str × Nat)
  cachePods : List (Str × List Pod × Nat)
  podsConfig : Option (Str → Str → Str → Option (List Pod))

/-- Django `cache.get`: an entry is visible only before its expiry. -/
def cacheLookup {α : Type} (entries : List (Str × α × Nat)) (key : Str) (now : Nat) :
    Option α :=
  match entries.find? (fun e => e.1 == key) with
  | some e => if now < e.2.2 then some e.2.1 else none
  | none => none

/-- Django `cache.set` with TTL: newest entry shadows older ones. -/
def cacheInsert {α : Type} (entries : List (Str × α × Nat)) (key : Str) (v : α)
    (expiry : Nat) : List (Str × α × Nat) :=
  (key, v, expiry) :: entries

/-- `os.path.join` for the slash-free segments used by the views. -/
def pathJoin (a b : Str) : Str := a ++ "/".toList ++ b

/-- `os.path.join("app", "static", "logs")`. -/
def logsBaseDir : Str := "app/static/logs".toList

/-- The ten candidate filenames of `get_pod_logs` (views.py:222-240),
in order; `date` is today's `%Y-%m-%d` rendering. -/
def logFilePatterns (sa sc sb sp date : Str) : List Str :=
  [ sp ++ ".log".toList
  , sa ++ "-".toList ++ sp ++ ".log".toList
  , sb ++ "-".toList ++ sp ++ ".log".toList
  , sa ++ "-".toList ++ sb ++ "-".toList ++ sp ++ ".log".toList
  , sc ++ "-".toList ++ sb ++ "-".toList ++ sp ++ ".log".toList
  , sp ++ "-".toList ++ date ++ ".log".toList
  , sa ++ "-".toList ++ sp ++ "-".toList ++ date ++ ".log".toList
  , sp ++ "_logs.log".toList
  , "pod_".toList ++ sp ++ ".log".toList
  , sa ++ "_".toList ++ sb ++ "_".toList ++ sp ++ ".log".toList ]

/-- The nine search directories of `get_pod_logs` (views.py:246-257),
in order. -/
def searchDirectories (sa sc sb : Str) : List Str :=
  [ logsBaseDir
  , pathJoin logsBaseDir sa
  , pathJoin logsBaseDir sc
  , pathJoin logsBaseDir sb
  , pathJoin (pathJoin logsBaseDir sa) sc
  , pathJoin (pathJoin logsBaseDir sa) sb
  , pathJoin (pathJoin logsBaseDir sc) sb
  , pathJoin (pathJoin logsBaseDir "kubernetes".toList) sc
  , pathJoin logsBaseDir "pods".toList ]

/-- The directory-crossed-with-pattern probe space of the filesystem
search stage. -/
def probedPaths (sa sc sb sp date : Str) : List Str :=
  (searchDirectories sa sc sb).flatMap
    (fun d => (logFilePatterns sa sc sb sp date).map (pathJoin d))

/-- Inner loop of the search (views.py:264-288): walk the pattern list
within one directory.  The accumulator is the current `log_content`
(set, without breaking, by a file whose content is whitespace-only);
the loop breaks, returning the found path, on the first file that is
non-empty, decodable and non-blank after stripping. -/
def innerSearch (st : St) (dir : Str) : List Str → Option Str → Option Str × Option Str
  | [], acc => (acc, none)
  | pat :: rest, acc =>
    match st.fs (pathJoin dir pat) with
    | some (FileRead.content s) =>
        if s.isEmpty then innerSearch st dir rest acc
        else if (pyStrip s).isEmpty then innerSearch st dir rest (some s)
        else (some s, some (pathJoin dir pat))
    | some FileRead.undecodable => innerSearch st dir rest acc
    | none => innerSearch st dir rest acc

/-- Outer loop of the search (views.py:260-291): walk the directory
list, skipping missing directories, stopping as soon as `log_content`
is truthy after a directory's inner loop. -/
def outerSearch (st : St) (pats : List Str) :
    List Str → Option Str × Option Str → Option Str × Option Str
  | [], acc => acc
  | d :: ds, acc =>
    if st.dirExists d then
      match innerSearch st d pats acc.1 with
      | (some s, f) => (some s, f)
      | (none, f) => outerSearch st pats ds (none, f)
    else outerSearch st pats ds acc

/-- The flat persistence path `logs/pods/{app}-{bundle}-{pod}.log` of
`auto_save_generated_logs` (views.py:1016). -/
def flatLogPath (sa sb sp : Str) : Str :=
  pathJoin (pathJoin logsBaseDir "pods".toList)
    (sa ++ "-".toList ++ sb ++ "-".toList ++ sp ++ ".log".toList)

/-- The hierarchical persistence path
`logs/{app}/{cluster}/{bundle}/{pod}.log` (views.py:1026). -/
def hierLogPath (sa sc sb sp : Str) : Str :=
  pathJoin (pathJoin (pathJoin (pathJoin logsBaseDir sa) sc) sb) (sp ++ ".log".toList)

/-- `auto_save_generated_logs` (views.py:1003): write the synthesized
content at the flat and hierarchical paths; `os.makedirs` makes the
target directories (and their ancestors) exist. -/
def auto_save_generated_logs (st : St) (sa sc sb sp content : Str) : St :=
  { st with
    fs := fun p =>
      if p == flatLogPath sa sb sp then some (FileRead.content content)
      else if p == hierLogPath sa sc sb sp then some (FileRead.content content)
      else st.fs p
    dirExists := fun d =>
      d == "app".toList || d == "app/static".toList || d == logsBaseDir ||
      d == pathJoin logsBaseDir "pods".toList ||
      d == pathJoin logsBaseDir sa ||
      d == pathJoin (pathJoin logsBaseDir sa) sc ||
      d == pathJoin (pathJoin (pathJoin logsBaseDir sa) sc) sb ||
      st.dirExists d }

/-- Rendering of the `found_log_file` variable into the banner; the
Python f-string renders `None` as the text `None`. -/
def renderSource : Option Str → Str
  | none => "None".toList
  | some s => s

/-- The metadata banner prepended to every served log (views.py:314). -/
def logMetadata (ts src pod app cluster bundle : Str) : Str :=
  "# LogOps - Log File Viewer\n# Loaded: ".toList ++ ts ++
  "\n# Source: ".toList ++ src ++
  "\n# Pod: ".toList ++ pod ++
  "\n# Application: ".toList ++ app ++
  "\n# Cluster: ".toList ++ cluster ++
  "\n# Bundle: ".toList ++ bundle ++
  "\n# ====================================\n\n".toList

/-- Python truthiness of a `str | None` variable. -/
def pyTruthyO : Option Str → Bool
  | some (_ :: _) => true
  | _ => false

/-- The cache key of `get_pod_logs` (views.py:210). -/
def podLogsKey (sa sc sb sp : Str) : Str :=
  "pod_logs_".toList ++ sa ++ "_".toList ++ sc ++ "_".toList ++ sb ++ "_".toList ++ sp

/-- The cache key of `get_pods` (views.py:112). -/
def podsKey (sa sc sb : Str) : Str :=
  "pods_".toList ++ sa ++ "_".toList ++ sc ++ "_".toList ++ sb

/-- Result of one `get_pod_logs` request: missing-field rejection, a
cache hit (no state change, banner baked into the cached value), or a
resolved response together with the post-request state. -/
inductive GplResult where
  | badRequest
  | fromCache (logs : Str)
  | ok (logs : Str) (source : Option Str) (st' : St)

/-- The logs string a caller receives, when the request was accepted. -/
def gplLogs : GplResult → Option Str
  | GplResult.badRequest => none
  | GplResult.fromCache logs => some logs
  | GplResult.ok logs _ _ => some logs

/-- `get_pod_logs` (views.py:188-330) as a state transformer: validate,
consult the cache, search the filesystem, fall back to the live fetch,
fall back to synthesis plus persistence, prepend the banner, cache the
final content for 30 seconds. -/
def get_pod_logs (st : St) (now : Nat) (application cluster bundle pod : Str) :
    GplResult :=
  let app := pyStrip application
  let cl := pyStrip cluster
  let bu := pyStrip bundle
  let po := pyStrip pod
  if app.isEmpty || cl.isEmpty || bu.isEmpty || po.isEmpty then GplResult.badRequest
  else
    let sa := sanitize_filename app
    let sc := sanitize_filename cl
    let sb := sanitize_filename bu
    let sp := sanitize_filename po
    let key := podLogsKey sa sc sb sp
    match cacheLookup st.cacheLogs key now with
    | some (c :: cs) => GplResult.fromCache (c :: cs)
    | _ =>
      let sr := outerSearch st (logFilePatterns sa sc sb sp (st.dateFor now))
        (searchDirectories sa sc sb) (none, none)
      let c2 : Option Str := match sr.1 with
        | some s => some s
        | none => st.kubectl
      let f2 : Option Str := match sr.1 with
        | some _ => sr.2
        | none => if pyTruthyO st.kubectl then some "kubernetes-api".toList else sr.2
      if pyTruthyO c2 then
        let finalLogs := logMetadata (st.fmtDT now) (renderSource f2) po app cl bu ++
          c2.getD []
        GplResult.ok finalLogs f2
          { st with cacheLogs := cacheInsert st.cacheLogs key finalLogs (now + 30) }
      else
        let synth := auto_generate_pod_logs st.fmtDT now app cl bu po
        let stSaved := auto_save_generated_logs st sa sc sb sp synth
        let finalLogs := logMetadata (st.fmtDT now) "auto-generated".toList po app cl bu ++
          synth
        GplResult.ok finalLogs (some "auto-generated".toList)
          { stSaved with
            cacheLogs := cacheInsert stSaved.cacheLogs key finalLogs (now + 30) }

/-- Result of one `get_pods` request. -/
inductive GpResult where
  | badRequest
  | fromCache (pods : List Pod)
  | ok (pods : List Pod) (st' : St)

/-- The `pods_config.json` walk of `get_pods` (views.py:120-143): the
hierarchy is navigated with the RAW (stripped) identifiers; a missing or
unparsable config, a missing level, or a non-list leaf all degrade to an
empty list. -/
def podsConfigLookup (st : St) (app cl bu : Str) : List Pod :=
  match st.podsConfig with
  | some cfg => (cfg app cl bu).getD []
  | none => []

/-- `get_pods` (views.py:97-152): the cache key is built from the
SANITIZED identifiers while the `pods_config` lookup walks the RAW
(stripped) identifiers; an empty config result falls back to the fixed
sample set; the list is cached for two minutes. -/
def get_pods (st : St) (now : Nat) (application cluster bundle : Str) : GpResult :=
  let app := pyStrip application
  let cl := pyStrip cluster
  let bu := pyStrip bundle
  if app.isEmpty || cl.isEmpty || bu.isEmpty then GpResult.badRequest
  else
    let key := podsKey (sanitize_filename app) (sanitize_filename cl)
      (sanitize_filename bu)
    match cacheLookup st.cachePods key now with
    | some (p :: ps) => GpResult.fromCache (p :: ps)
    | _ =>
      let pods := if (podsConfigLookup st app cl bu).isEmpty
        then generate_sample_pods app bu else podsConfigLookup st app cl bu
      GpResult.ok pods
        { st with cachePods := cacheInsert st.cachePods key pods (now + 120) }

/-- A fresh deployment: nothing on disk, no kubectl, empty caches. -/
def emptySt : St where
  fs := fun _ => none
  dirExists := fun _ => false
  kubectl := none
  fmtDT := fun _ => "2025-01-01 00:00:00".toList
  dateFor := fun _ => "2025-01-01".toList
  cacheLogs := []
  cachePods := []
  podsConfig := none

/-- First call of the C2 counterexample scenario. -/
def c2exCall1 : GplResult :=
  get_pod_logs emptySt 100 "shop".toList "eu-1".toList "smoke".toList "web".toList

/-- State left behind by the first call of the C2 scenario. -/
def c2exSt1 : St :=
  match c2exCall1 with
  | GplResult.ok _ _ s => s
  | _ => emptySt

/-- Second call of the C2 counterexample scenario, 10 seconds later
(within the 30-second log-cache TTL). -/
def c2exCall2 : GplResult :=
  get_pod_logs c2exSt1 110 "shop".toList "eu-1".toList "smoke".toList "web".toList

/-- `p` has no nontrivial border: no proper nonempty suffix of `p` equals
the prefix of the same length.  Occurrences of such a `p` can never
overlap, so Python `replace` consumes every occurrence — in particular a
final one. -/
def borderFree (p : Str) : Prop :=
  ∀ k < p.length, 0 < k → p.drop k ≠ p.take (p.length - k)

/-- No nonempty proper suffix of `p` is a prefix of `q` (up to `q`'s
length): an occurrence of `p` can then never straddle into a trailing
copy of `q`. -/
def crossFree (p q : Str) : Prop :=
  ∀ m < p.length, 0 < m → m ≤ q.length → p.drop (p.length - m) ≠ q.take m

instance decBorderFree (p : Str) : Decidable (borderFree p) :=
  inferInstanceAs (Decidable (∀ k < p.length, 0 < k → p.drop k ≠ p.take (p.length - k)))

instance decCrossFree (p q : Str) : Decidable (crossFree p q) :=
  inferInstanceAs
    (Decidable (∀ m < p.length, 0 < m → m ≤ q.length → p.drop (p.length - m) ≠ q.take m))

/-- A path segment free of directory separators. -/
def slashFree (s : Str) : Prop := '/' ∉ s

instance decSlashFree (s : Str) : Decidable (slashFree s) :=
  inferInstanceAs (Decidable ('/' ∉ s))

/-- A concrete timestamp formatter for witness scenarios. -/
def exFmt : Nat → Str := fun _ => "2025-01-01 00:00:00".toList

/-- First call of the C10 witness scenario: raw identifiers with an
invalid character. -/
def c10exCall1 : GpResult :=
  get_pods emptySt 0 "shop!a".toList "eu".toList "smoke".toList

/-- Pod list returned by the first C10 call. -/
def c10exPods : List Pod :=
  match c10exCall1 with
  | GpResult.ok pods _ => pods
  | _ => []

/-- State left behind by the first C10 call. -/
def c10exSt1 : St :=
  match c10exCall1 with
  | GpResult.ok _ s => s
  | _ => emptySt

/-- Concrete over-limit input for exercising the truncation guard. -/
def longLogInput : Str := List.replicate 8001 'a'

/-- Concrete under-limit input for exercising the truncation guard. -/
def shortLogInput : Str := "hello".toList

theorem append_ne_nil_left {α : Type} {a b : List α} (h : a ≠ []) : a ++ b ≠ [] := by
  cases a with
  | nil => exact absurd rfl h
  | cons x xs => simp

theorem dropWhile_id_of_all {p : Char → Bool} {s : Str}
    (h : ∀ c ∈ s, p c = false) : s.dropWhile p = s := by
  cases s with
  | nil => rfl
  | cons x xs =>
    rw [List.dropWhile_cons, h x (by simp)]
    simp

theorem pyStrip_id {s : Str} (h : ∀ c ∈ s, isPySpace c = false) : pyStrip s = s := by
  unfold pyStrip
  rw [dropWhile_id_of_all h, dropWhile_id_of_all (by intro c hc; exact h c (by simpa using hc)),
    List.reverse_reverse]

theorem pyStrip_nil {s : Str} (h : ∀ c ∈ s, isPySpace c = true) : pyStrip s = [] := by
  unfold pyStrip
  rw [List.dropWhile_eq_nil_iff.mpr h]
  rfl

theorem mem_dropWhile_of_mem {p : Char → Bool} {s : Str} {c : Char}
    (hc : c ∈ s) (hp : p c = false) : c ∈ s.dropWhile p := by
  induction s with
  | nil => cases hc
  | cons x xs ih =>
    rw [List.dropWhile_cons]
    by_cases hx : p x = true
    · rw [if_pos hx]
      rcases List.mem_cons.mp hc with rfl | hmem
      · rw [hx] at hp; cases hp
      · exact ih hmem
    · rw [if_neg hx]
      exact hc

theorem pyStrip_ne_nil {s : Str} (h : ∃ c ∈ s, isPySpace c = false) : pyStrip s ≠ [] := by
  rcases h with ⟨c, hc, hcp⟩
  intro hnil
  unfold pyStrip at hnil
  rw [List.reverse_eq_nil_iff] at hnil
  have hall := List.dropWhile_eq_nil_iff.mp hnil
  have : c ∈ (s.dropWhile isPySpace).reverse :=
    List.mem_reverse.mpr (mem_dropWhile_of_mem hc hcp)
  rw [hall c this] at hcp
  cases hcp

/-- C3 (amended): `sanitize_filename` always returns a non-empty string
over the alphabet `[A-Za-z0-9_-]`; empty (and null) input yields the
literal `unknown`, and non-empty input has every character outside the
class replaced by `'_'` (so all-invalid input yields underscores, NOT
`unknown`). -/
theorem sanitize_filename_spec (s : Str) :
    sanitize_filename s ≠ [] ∧ (∀ c ∈ sanitize_filename s, validCharB c = true) ∧
    sanitize_filename s =
      (if s = [] then "unknown".toList
       else s.map (fun c => if validCharB c then c else '_')) := by
  refine ⟨?_, ?_, ?_⟩
  · cases s with
    | nil => decide
    | cons x xs => simp [sanitize_filename]
  · intro c hc
    cases s with
    | nil =>
      have hall : ∀ x ∈ "unknown".toList, validCharB x = true := by decide
      exact hall c hc
    | cons x xs =>
      have hs : sanitize_filename (x :: xs) =
          (x :: xs).map (fun c => if validCharB c then c else '_') := by
        simp [sanitize_filename]
      rw [hs] at hc
      rcases List.mem_map.mp hc with ⟨d, _, hd⟩
      by_cases hv : validCharB d = true
      · rw [if_pos hv] at hd; rw [← hd]; exact hv
      · rw [if_neg hv] at hd; rw [← hd]; decide
  · cases s with
    | nil => decide
    | cons x xs => simp [sanitize_filename]

/-- C3 counterexample: input consisting entirely of invalid characters
does NOT sanitize to `unknown` — `sanitize("!")` is `"_"`. -/
theorem sanitize_filename_all_invalid :
    sanitize_filename "!".toList = "_".toList ∧
    sanitize_filename "!".toList ≠ "unknown".toList := by
  constructor
  · decide
  · decide

/-- C7: in both `summarize_logs` and `analyze_logs`, accepted input
strictly longer than 8000 characters is dispatched as its first 8000
characters with the truncation marker appended; input of at most 8000
characters is dispatched unchanged. -/
theorem analysis_truncation (raw : Str)
    (hne : ((pyStrip raw).isEmpty || pyStrip raw == waitingPh ||
      pyStrip raw == fetchingPh) = false) :
    (8000 < (pyStrip raw).length →
      summarize_logs raw =
        AnalysisStep.dispatched ((pyStrip raw).take 8000 ++ truncMarker) ∧
      analyze_logs raw =
        AnalysisStep.dispatched ((pyStrip raw).take 8000 ++ truncMarker)) ∧
    ((pyStrip raw).length ≤ 8000 →
      summarize_logs raw = AnalysisStep.dispatched (pyStrip raw) ∧
      analyze_logs raw = AnalysisStep.dispatched (pyStrip raw)) := by
  constructor
  · intro hlen
    constructor
    · unfold summarize_logs
      simp only [hne, Bool.false_eq_true, if_false, truncateLog, if_pos hlen]
    · unfold analyze_logs
      simp only [hne, Bool.false_eq_true, if_false, truncateLog, if_pos hlen]
  · intro hlen
    have hlt : ¬ 8000 < (pyStrip raw).length := by omega
    constructor
    · unfold summarize_logs
      simp only [hne, Bool.false_eq_true, if_false, truncateLog, if_neg hlt]
    · unfold analyze_logs
      simp only [hne, Bool.false_eq_true, if_false, truncateLog, if_neg hlt]

theorem analysis_truncation_witness :
    (summarize_logs longLogInput =
      AnalysisStep.dispatched ((pyStrip longLogInput).take 8000 ++ truncMarker) ∧
     analyze_logs longLogInput =
      AnalysisStep.dispatched ((pyStrip longLogInput).take 8000 ++ truncMarker)) ∧
    (summarize_logs shortLogInput = AnalysisStep.dispatched (pyStrip shortLogInput) ∧
     analyze_logs shortLogInput = AnalysisStep.dispatched (pyStrip shortLogInput)) := by
  have hid : pyStrip longLogInput = longLogInput :=
    pyStrip_id (fun c hc => by rw [List.eq_of_mem_replicate hc]; decide)
  have hlen : 8000 < (pyStrip longLogInput).length := by
    rw [hid]
    simp only [longLogInput, List.length_replicate]
    omega
  have hne : ((pyStrip longLogInput).isEmpty || pyStrip longLogInput == waitingPh ||
      pyStrip longLogInput == fetchingPh) = false := by
    rw [hid]; decide
  exact ⟨(analysis_truncation longLogInput hne).1 hlen,
    (analysis_truncation shortLogInput (by decide)).2 (by decide)⟩

/-- C8: whitespace-only input and the two placeholder strings make both
`summarize_logs` and `analyze_logs` return their fixed "no logs"
message, with nothing dispatched to the external service. -/
theorem analysis_placeholder_rejection (raw : Str)
    (h : (∀ c ∈ raw, isPySpace c = true) ∨ raw = waitingPh ∨ raw = fetchingPh) :
    summarize_logs raw =
      AnalysisStep.rejected "❌ No logs available to summarize.".toList ∧
    analyze_logs raw =
      AnalysisStep.rejected "❌ No logs available for root cause analysis.".toList := by
  rcases h with hsp | rfl | rfl
  · have hs : pyStrip raw = [] := pyStrip_nil hsp
    constructor
    · unfold summarize_logs
      simp only [hs, List.isEmpty_nil, Bool.true_or, if_true]
    · unfold analyze_logs
      simp only [hs, List.isEmpty_nil, Bool.true_or, if_true]
  · exact ⟨by decide, by decide⟩
  · exact ⟨by decide, by decide⟩

theorem analysis_placeholder_rejection_witness :
    (summarize_logs waitingPh =
      AnalysisStep.rejected "❌ No logs available to summarize.".toList ∧
    analyze_logs waitingPh =
      AnalysisStep.rejected "❌ No logs available for root cause analysis.".toList) ∧
    (summarize_logs [] =
      AnalysisStep.rejected "❌ No logs available to summarize.".toList ∧
    analyze_logs [] =
      AnalysisStep.rejected "❌ No logs available for root cause analysis.".toList) :=
  ⟨analysis_placeholder_rejection waitingPh (Or.inr (Or.inl rfl)),
   analysis_placeholder_rejection [] (Or.inl (by intro c hc; cases hc))⟩

theorem replaceAllGo_eq_drop (pat rep : Str) :
    ∀ (s : Str) (k : Nat), replaceAllGo pat rep s k = replaceAllGo pat rep (s.drop k) 0 := by
  intro s
  induction s with
  | nil => intro k; simp [replaceAllGo]
  | cons c t ih =>
    intro k
    cases k with
    | zero => rfl
    | succ j =>
      show replaceAllGo pat rep t j = _
      rw [ih j, List.drop_succ_cons]

theorem replaceAll_nil (pat rep : Str) : replaceAll pat rep [] = [] := rfl

/-- One-step unfolding of Python `replace`: on a match, emit `rep` and
resume after the consumed occurrence; otherwise keep the head. -/
theorem replaceAll_cons (pat rep : Str) (c : Char) (t : Str) :
    replaceAll pat rep (c :: t) =
      if pat.isPrefixOf (c :: t) then
        rep ++ replaceAll pat rep (t.drop (pat.length - 1))
      else c :: replaceAll pat rep t := by
  show replaceAllGo pat rep (c :: t) 0 = _
  by_cases hp : pat.isPrefixOf (c :: t) = true
  · rw [if_pos hp]
    show (if pat.isPrefixOf (c :: t) then rep ++ replaceAllGo pat rep t (pat.length - 1)
      else c :: replaceAllGo pat rep t 0) = _
    rw [if_pos hp, replaceAllGo_eq_drop]
    rfl
  · rw [if_neg hp]
    show (if pat.isPrefixOf (c :: t) then rep ++ replaceAllGo pat rep t (pat.length - 1)
      else c :: replaceAllGo pat rep t 0) = _
    rw [if_neg hp]
    rfl

/-- If `pat` never occurs in `s`, `replace` leaves `s` unchanged. -/
theorem replaceAll_no_occurrence (pat rep : Str) :
    ∀ s : Str, ¬ pat <:+: s → replaceAll pat rep s = s := by
  intro s
  induction s with
  | nil => intro _; rfl
  | cons c t ih =>
    intro h
    rw [replaceAll_cons]
    have hp : pat.isPrefixOf (c :: t) = false := by
      cases hpp : pat.isPrefixOf (c :: t)
      · rfl
      · exact absurd (( List.isPrefixOf_iff_prefix.mp hpp).isInfix) h
    rw [hp]
    simp only [Bool.false_eq_true, if_false]
    rw [ih (fun hinf => h ( List.infix_cons hinf))]

theorem suffix_of_append_right {p a b : Str} (h : p <:+ a ++ b)
    (hl : p.length ≤ b.length) : p <:+ b := by
  rcases h with ⟨u, hu⟩
  have hlen : u.length + p.length = a.length + b.length := by
    have := congrArg List.length hu
    simpa using this
  have hau : a.length ≤ u.length := by omega
  have hz : a.length - u.length = 0 := by omega
  have hdrop : (u ++ p).drop a.length = (a ++ b).drop a.length := by rw [hu]
  rw [List.drop_append_eq_append_drop, hz, List.drop_zero, List.drop_left] at hdrop
  exact ⟨u.drop a.length, hdrop⟩

theorem suffix_of_cons {p : Str} {c : Char} {t : Str} (h : p <:+ c :: t)
    (hl : p.length ≤ t.length) : p <:+ t :=
  suffix_of_append_right (a := [c]) (by simpa using h) hl

/-- If `s` ends with a border-free `pat`, then after `replace` the
result ends with `rep`: the final occurrence is always consumed. -/
theorem replaceAll_ends_aux (pat rep : Str) (hne : pat ≠ [])
    (hbf : borderFree pat) :
    ∀ n, ∀ s : Str, s.length ≤ n → pat <:+ s → rep <:+ replaceAll pat rep s := by
  intro n
  induction n with
  | zero =>
    intro s hlen hsuf
    have hs : s = [] := List.length_eq_zero.mp (Nat.le_zero.mp hlen)
    subst hs
    exact absurd (List.suffix_nil.mp hsuf) hne
  | succ n ih =>
    intro s hlen hsuf
    cases s with
    | nil => exact absurd (List.suffix_nil.mp hsuf) hne
    | cons c t =>
      have hplen : 0 < pat.length := List.length_pos.mpr hne
      rw [replaceAll_cons]
      cases hp : pat.isPrefixOf (c :: t) with
      | true =>
        simp only [if_true]
        have hpre : pat <+: c :: t := List.isPrefixOf_iff_prefix.mp hp
        have hct : c :: t = pat ++ (c :: t).drop pat.length := by
          conv_lhs => rw [← List.take_append_drop pat.length (c :: t)]
          rw [← List.prefix_iff_eq_take.mp hpre]
        have hdrop : t.drop (pat.length - 1) = (c :: t).drop pat.length := by
          obtain ⟨m, hm⟩ := Nat.exists_eq_succ_of_ne_zero (Nat.pos_iff_ne_zero.mp hplen)
          rw [hm]
          simp only [Nat.succ_sub_one, Nat.add_sub_cancel, List.drop_succ_cons]
        rw [hdrop]
        generalize hg : (c :: t).drop pat.length = rest at hct
        have hrlen : rest.length = (c :: t).length - pat.length := by
          rw [← hg, List.length_drop]
        by_cases hre : rest = []
        · rw [hre, replaceAll_nil, List.append_nil]
        · rcases le_or_lt pat.length rest.length with hcmp | hcmp
          · have hsr : pat <:+ rest := by
              rw [hct] at hsuf
              exact suffix_of_append_right hsuf hcmp
            have hrl : rest.length ≤ n := by
              simp only [List.length_cons] at hrlen hlen
              omega
            exact (ih rest hrl hsr).trans (List.suffix_append rep _)
          · exfalso
            rw [hct] at hsuf
            rcases hsuf with ⟨u, hu⟩
            have hulen : u.length = rest.length := by
              have := congrArg List.length hu
              simp only [List.length_append] at this
              omega
            have hupos : 0 < u.length := by
              rw [hulen]
              exact List.length_pos.mpr hre
            have h1 : (u ++ pat).drop u.length = pat := List.drop_left u pat
            have h2 : (pat ++ rest).drop u.length = pat.drop u.length ++ rest := by
              rw [List.drop_append_eq_append_drop]
              have hz : u.length - pat.length = 0 := by omega
              rw [hz, List.drop_zero]
            have hpr : pat = pat.drop u.length ++ rest := by
              have h4 := congrArg (List.drop u.length) hu
              rw [h1, h2] at h4
              exact h4
            have hdl : (pat.drop u.length).length = pat.length - u.length :=
              List.length_drop u.length pat
            have h3 := congrArg (List.take (pat.length - u.length)) hpr
            rw [List.take_left' hdl] at h3
            exact hbf u.length (by omega) hupos h3.symm
      | false =>
        simp only [Bool.false_eq_true, if_false]
        have hlt : pat.length ≤ t.length := by
          rcases Nat.lt_or_ge t.length pat.length with hl | hl
          · exfalso
            have hle : pat.length ≤ (c :: t).length := hsuf.length_le
            simp only [List.length_cons] at hle
            have heq : pat.length = (c :: t).length := by
              simp only [List.length_cons]; omega
            have hmm : pat = c :: t := hsuf.eq_of_length heq
            have : (c :: t).isPrefixOf (c :: t) = true :=
              List.isPrefixOf_iff_prefix.mpr ( List.prefix_refl _)
            rw [hmm] at hp
            rw [this] at hp
            cases hp
          · exact hl
        have hst : pat <:+ t := suffix_of_cons hsuf hlt
        have htl : t.length ≤ n := by
          simp only [List.length_cons] at hlen; omega
        exact (ih t htl hst).trans (List.suffix_cons c _)

theorem replaceAll_ends_with (pat rep s : Str) (hne : pat ≠ [])
    (hbf : borderFree pat) (h : pat <:+ s) : rep <:+ replaceAll pat rep s :=
  replaceAll_ends_aux pat rep hne hbf s.length s le_rfl h

/-- If no nonempty suffix of `pat` is a prefix of `q` and `pat` does not
occur inside `q`, then `replace` preserves a trailing `q`. -/
theorem replaceAll_keeps_aux (pat rep q : Str) (hne : pat ≠ [])
    (hcf : crossFree pat q) (hni : ¬ pat <:+: q) :
    ∀ n, ∀ a : Str, a.length ≤ n → q <:+ replaceAll pat rep (a ++ q) := by
  intro n
  induction n with
  | zero =>
    intro a hlen
    have ha : a = [] := List.length_eq_zero.mp (Nat.le_zero.mp hlen)
    subst ha
    rw [List.nil_append, replaceAll_no_occurrence pat rep q hni]
  | succ n ih =>
    intro a hlen
    cases a with
    | nil => rw [List.nil_append, replaceAll_no_occurrence pat rep q hni]
    | cons c a' =>
      have hplen : 0 < pat.length := List.length_pos.mpr hne
      rw [List.cons_append, replaceAll_cons]
      cases hp : pat.isPrefixOf (c :: (a' ++ q)) with
      | true =>
        simp only [if_true]
        have hpre : pat <+: (c :: a') ++ q := by
          rw [List.cons_append]
          exact List.isPrefixOf_iff_prefix.mp hp
        rcases le_or_lt pat.length (c :: a').length with hle | hgt
        · have hdrop : (a' ++ q).drop (pat.length - 1) =
              ((c :: a').drop pat.length) ++ q := by
            obtain ⟨m, hm⟩ := Nat.exists_eq_succ_of_ne_zero (Nat.pos_iff_ne_zero.mp hplen)
            rw [hm]
            simp only [Nat.succ_sub_one, Nat.add_sub_cancel, List.drop_succ_cons]
            rw [List.drop_append_eq_append_drop]
            have hz : m - a'.length = 0 := by
              simp only [List.length_cons] at hle; omega
            rw [hz, List.drop_zero]
          rw [hdrop]
          have hal : ((c :: a').drop pat.length).length ≤ n := by
            rw [List.length_drop]
            simp only [List.length_cons] at hlen ⊢
            omega
          exact (ih _ hal).trans (List.suffix_append rep _)
        · exfalso
          have h1 := List.prefix_iff_eq_take.mp hpre
          rw [List.take_append_eq_append_take,
            List.take_of_length_le (Nat.le_of_lt hgt)] at h1
          set m := pat.length - (c :: a').length with hmdef
          have hm0 : 0 < m := by
            simp only [hmdef]; omega
          have hmlt : m < pat.length := by
            have : 0 < (c :: a').length := by simp
            simp only [hmdef]; omega
          have hmq : m ≤ q.length := by
            have := hpre.length_le
            simp only [List.length_append] at this
            simp only [hmdef]; omega
          have hdm : pat.drop (pat.length - m) = q.take m := by
            have hlm : pat.length - m = (c :: a').length := by
              simp only [hmdef]; omega
            rw [hlm]
            conv_lhs => rw [h1]
            exact List.drop_left _ _
          exact hcf m hmlt hm0 hmq hdm
      | false =>
        simp only [Bool.false_eq_true, if_false]
        have hal : a'.length ≤ n := by
          simp only [List.length_cons] at hlen; omega
        exact (ih a' hal).trans (List.suffix_cons c _)

theorem replaceAll_keeps_suffix (pat rep q : Str) (hne : pat ≠ [])
    (hcf : crossFree pat q) (hni : ¬ pat <:+: q) (a : Str) :
    q <:+ replaceAll pat rep (a ++ q) :=
  replaceAll_keeps_aux pat rep q hne hcf hni a.length a le_rfl

/-- C5: the sample fallback of the pod lister returns exactly six
descriptors for every (app, bundle); the designated entry ending in
`-error-pod` has a display name containing `(Error Demo)` and the entry
ending in `-warn-service` has a display name containing
`(Warning Demo)`. -/
theorem generate_sample_pods_spec (app bundle : Str) :
    (generate_sample_pods app bundle).length = 6 ∧
    (∃ p, (generate_sample_pods app bundle)[4]? = some p ∧
      "-error-pod".toList <:+ p.name ∧ "(Error Demo)".toList <:+: p.display_name) ∧
    (∃ p, (generate_sample_pods app bundle)[5]? = some p ∧
      "-warn-service".toList <:+ p.name ∧
      "(Warning Demo)".toList <:+: p.display_name) := by
  refine ⟨by simp [generate_sample_pods], ?_, ?_⟩
  · refine ⟨⟨sanitize_filename app ++ "-".toList ++ sanitize_filename bundle ++
        "-error-pod".toList,
      replaceAll "-warn-service".toList " (Warning Demo)".toList
        (replaceAll "-error-pod".toList " (Error Demo)".toList
          (replaceAll "_".toList "-".toList
            (sanitize_filename app ++ "-".toList ++ sanitize_filename bundle ++
              "-error-pod".toList)))⟩, ?_, ?_, ?_⟩
    · rfl
    · exact ⟨sanitize_filename app ++ "-".toList ++ sanitize_filename bundle, by simp⟩
    · show "(Error Demo)".toList <:+:
        replaceAll "-warn-service".toList " (Warning Demo)".toList
          (replaceAll "-error-pod".toList " (Error Demo)".toList
            (replaceAll "_".toList "-".toList
              (sanitize_filename app ++ "-".toList ++ sanitize_filename bundle ++
                "-error-pod".toList)))
      rw [show sanitize_filename app ++ "-".toList ++ sanitize_filename bundle ++
          "-error-pod".toList =
          (sanitize_filename app ++ "-".toList ++ sanitize_filename bundle) ++
            "-error-pod".toList from by simp]
      have h1 : "-error-pod".toList <:+ replaceAll "_".toList "-".toList
          ((sanitize_filename app ++ "-".toList ++ sanitize_filename bundle) ++
            "-error-pod".toList) :=
        replaceAll_keeps_suffix _ _ _ (by decide) (by decide) (by decide) _
      rcases h1 with ⟨b, hb⟩
      have h2 : " (Error Demo)".toList <:+
          replaceAll "-error-pod".toList " (Error Demo)".toList
            (replaceAll "_".toList "-".toList
              ((sanitize_filename app ++ "-".toList ++ sanitize_filename bundle) ++
                "-error-pod".toList)) := by
        rw [← hb]
        exact replaceAll_ends_with _ _ _ (by decide) (by decide)
          (List.suffix_append b _)
      rcases h2 with ⟨b2, hb2⟩
      have h3 : " (Error Demo)".toList <:+
          replaceAll "-warn-service".toList " (Warning Demo)".toList
            (replaceAll "-error-pod".toList " (Error Demo)".toList
              (replaceAll "_".toList "-".toList
                ((sanitize_filename app ++ "-".toList ++ sanitize_filename bundle) ++
                  "-error-pod".toList))) := by
        rw [← hb2]
        exact replaceAll_keeps_suffix _ _ _ (by decide) (by decide) (by decide) b2
      exact ((show "(Error Demo)".toList <:+ " (Error Demo)".toList from by
        decide).trans h3).isInfix
  · refine ⟨⟨sanitize_filename app ++ "-".toList ++ sanitize_filename bundle ++
        "-warn-service".toList,
      replaceAll "-warn-service".toList " (Warning Demo)".toList
        (replaceAll "-error-pod".toList " (Error Demo)".toList
          (replaceAll "_".toList "-".toList
            (sanitize_filename app ++ "-".toList ++ sanitize_filename bundle ++
              "-warn-service".toList)))⟩, ?_, ?_, ?_⟩
    · rfl
    · exact ⟨sanitize_filename app ++ "-".toList ++ sanitize_filename bundle, by simp⟩
    · show "(Warning Demo)".toList <:+:
        replaceAll "-warn-service".toList " (Warning Demo)".toList
          (replaceAll "-error-pod".toList " (Error Demo)".toList
            (replaceAll "_".toList "-".toList
              (sanitize_filename app ++ "-".toList ++ sanitize_filename bundle ++
                "-warn-service".toList)))
      rw [show sanitize_filename app ++ "-".toList ++ sanitize_filename bundle ++
          "-warn-service".toList =
          (sanitize_filename app ++ "-".toList ++ sanitize_filename bundle) ++
            "-warn-service".toList from by simp]
      have h1 : "-warn-service".toList <:+ replaceAll "_".toList "-".toList
          ((sanitize_filename app ++ "-".toList ++ sanitize_filename bundle) ++
            "-warn-service".toList) :=
        replaceAll_keeps_suffix _ _ _ (by decide) (by decide) (by decide) _
      rcases h1 with ⟨b, hb⟩
      have h2 : "-warn-service".toList <:+
          replaceAll "-error-pod".toList " (Error Demo)".toList
            (replaceAll "_".toList "-".toList
              ((sanitize_filename app ++ "-".toList ++ sanitize_filename bundle) ++
                "-warn-service".toList)) := by
        rw [← hb]
        exact replaceAll_keeps_suffix _ _ _ (by decide) (by decide) (by decide) b
      rcases h2 with ⟨b2, hb2⟩
      have h3 : " (Warning Demo)".toList <:+
          replaceAll "-warn-service".toList " (Warning Demo)".toList
            (replaceAll "-error-pod".toList " (Error Demo)".toList
              (replaceAll "_".toList "-".toList
                ((sanitize_filename app ++ "-".toList ++ sanitize_filename bundle) ++
                  "-warn-service".toList))) := by
        rw [← hb2]
        exact replaceAll_ends_with _ _ _ (by decide) (by decide)
          (List.suffix_append b2 _)
      exact ((show "(Warning Demo)".toList <:+ " (Warning Demo)".toList from by
        decide).trans h3).isInfix

theorem startupLines_lvl (fmt : Nat → Str) (b : Nat) (a c bu p : Str) :
    ∀ l ∈ startupLines fmt b a c bu p, l.lvl = "INFO".toList := by
  intro l hl
  simp only [startupLines, List.mem_cons, List.not_mem_nil, or_false] at hl
  rcases hl with rfl | rfl | rfl | rfl | rfl | rfl | rfl <;> rfl

theorem serviceLines_lvl (fmt : Nat → Str) (b : Nat) (p : Str) :
    ∀ l ∈ serviceLines fmt b p, l.lvl = "INFO".toList := by
  intro l hl
  unfold serviceLines at hl
  split at hl
  · simp only [List.mem_cons, List.not_mem_nil, or_false] at hl
    rcases hl with rfl | rfl | rfl | rfl <;> rfl
  · split at hl
    · simp only [List.mem_cons, List.not_mem_nil, or_false] at hl
      rcases hl with rfl | rfl | rfl | rfl | rfl <;> rfl
    · split at hl
      · simp only [List.mem_cons, List.not_mem_nil, or_false] at hl
        rcases hl with rfl | rfl | rfl | rfl <;> rfl
      · simp only [List.mem_cons, List.not_mem_nil, or_false] at hl
        rcases hl with rfl | rfl | rfl | rfl <;> rfl

theorem footerLines_lvl (fmt : Nat → Str) (rt : Nat) (p : Str) :
    ∀ l ∈ footerLines fmt rt p, l.lvl = "INFO".toList := by
  intro l hl
  simp only [footerLines, List.mem_cons, List.not_mem_nil, or_false] at hl
  rcases hl with rfl | rfl | rfl | rfl | rfl | rfl <;> rfl

theorem operationalLines_warn_lvls (fmt : Nat → Str) (ct : Nat) (pod : Str)
    (hbe : containsSub "error".toList (lowerStr pod) = false)
    (hbw : containsSub "warn".toList (lowerStr pod) = true) :
    ∀ l ∈ operationalLines fmt ct pod,
      l.lvl = "INFO".toList ∨ l.lvl = "WARN".toList ∨ l.lvl = "ERROR".toList := by
  intro l hl
  unfold operationalLines at hl
  rw [hbe, hbw] at hl
  simp only [Bool.false_eq_true, if_false, if_true, List.mem_cons,
    List.not_mem_nil, or_false] at hl
  rcases hl with rfl | rfl | rfl | rfl | rfl | rfl | rfl | rfl
  · exact Or.inl rfl
  · exact Or.inr (Or.inl rfl)
  · exact Or.inr (Or.inl rfl)
  · exact Or.inr (Or.inr rfl)
  · exact Or.inr (Or.inl rfl)
  · exact Or.inl rfl
  · exact Or.inr (Or.inl rfl)
  · exact Or.inl rfl

theorem operationalLines_normal_lvl (fmt : Nat → Str) (ct : Nat) (pod : Str)
    (hbe : containsSub "error".toList (lowerStr pod) = false)
    (hbw : containsSub "warn".toList (lowerStr pod) = false) :
    ∀ l ∈ operationalLines fmt ct pod, l.lvl = "INFO".toList := by
  intro l hl
  unfold operationalLines at hl
  rw [hbe, hbw] at hl
  simp only [Bool.false_eq_true, if_false, List.mem_cons, List.not_mem_nil,
    or_false] at hl
  rcases hl with rfl | rfl | rfl | rfl | rfl | rfl | rfl | rfl <;> rfl

/-- C4 (amended): synthesis is pod-name-driven — a pod whose lowercased
name contains `error` always gets a `FATAL`-level line; a pod whose
lowercased name contains `warn` BUT NOT `error` gets a `WARN` line and
no `FATAL` line; a pod containing neither gets no `ERROR`- or
`FATAL`-level line in its operational (steady-state) section. -/
theorem auto_generate_pod_logs_classification (fmt : Nat → Str) (now : Nat)
    (app cluster bundle pod : Str) :
    ("error".toList <:+: lowerStr pod →
      ∃ l ∈ podLogLines fmt now app cluster bundle pod, l.lvl = "FATAL".toList) ∧
    ("warn".toList <:+: lowerStr pod → ¬ "error".toList <:+: lowerStr pod →
      (∃ l ∈ podLogLines fmt now app cluster bundle pod, l.lvl = "WARN".toList) ∧
      ∀ l ∈ podLogLines fmt now app cluster bundle pod, l.lvl ≠ "FATAL".toList) ∧
    (¬ "error".toList <:+: lowerStr pod → ¬ "warn".toList <:+: lowerStr pod →
      ∀ l ∈ operationalLines fmt (now - 5400 + 20) pod,
        l.lvl ≠ "ERROR".toList ∧ l.lvl ≠ "FATAL".toList) := by
  refine ⟨?_, ?_, ?_⟩
  · intro herr
    have hbe : containsSub "error".toList (lowerStr pod) = true := by
      unfold containsSub; exact decide_eq_true herr
    refine ⟨⟨fmt (now - 5400 + 20 + 180), "FATAL".toList,
      "Critical error - service unavailable".toList⟩, ?_, rfl⟩
    have hmem : (⟨fmt (now - 5400 + 20 + 180), "FATAL".toList,
        "Critical error - service unavailable".toList⟩ : LogLine) ∈
        operationalLines fmt (now - 5400 + 20) pod := by
      unfold operationalLines
      rw [hbe]
      simp
    simp only [podLogLines, List.mem_append]
    tauto
  · intro hwarn herr
    have hbe : containsSub "error".toList (lowerStr pod) = false := by
      unfold containsSub; exact decide_eq_false herr
    have hbw : containsSub "warn".toList (lowerStr pod) = true := by
      unfold containsSub; exact decide_eq_true hwarn
    constructor
    · refine ⟨⟨fmt (now - 5400 + 20 + 45), "WARN".toList,
        "High CPU usage detected: 78%".toList⟩, ?_, rfl⟩
      have hmem : (⟨fmt (now - 5400 + 20 + 45), "WARN".toList,
          "High CPU usage detected: 78%".toList⟩ : LogLine) ∈
          operationalLines fmt (now - 5400 + 20) pod := by
        unfold operationalLines
        rw [hbe, hbw]
        simp
      simp only [podLogLines, List.mem_append]
      tauto
    · intro l hl
      simp only [podLogLines, List.mem_append] at hl
      rcases hl with ((hl | hl) | hl) | hl
      · rw [startupLines_lvl fmt _ app cluster bundle pod l hl]; decide
      · rw [serviceLines_lvl fmt _ pod l hl]; decide
      · rcases operationalLines_warn_lvls fmt _ pod hbe hbw l hl with
          he | he | he <;> rw [he] <;> decide
      · rw [footerLines_lvl fmt _ pod l hl]; decide
  · intro herr hwarn
    have hbe : containsSub "error".toList (lowerStr pod) = false := by
      unfold containsSub; exact decide_eq_false herr
    have hbw : containsSub "warn".toList (lowerStr pod) = false := by
      unfold containsSub; exact decide_eq_false hwarn
    intro l hl
    rw [operationalLines_normal_lvl fmt _ pod hbe hbw l hl]
    constructor <;> decide

theorem auto_generate_pod_logs_classification_witness :
    (∃ l ∈ podLogLines exFmt 7200 "a".toList "c".toList "b".toList
      "svc-error-pod".toList, l.lvl = "FATAL".toList) ∧
    ((∃ l ∈ podLogLines exFmt 7200 "a".toList "c".toList "b".toList
      "svc-warn-service".toList, l.lvl = "WARN".toList) ∧
      ∀ l ∈ podLogLines exFmt 7200 "a".toList "c".toList "b".toList
        "svc-warn-service".toList, l.lvl ≠ "FATAL".toList) ∧
    (∀ l ∈ operationalLines exFmt (7200 - 5400 + 20) "plain-pod".toList,
      l.lvl ≠ "ERROR".toList ∧ l.lvl ≠ "FATAL".toList) :=
  ⟨(auto_generate_pod_logs_classification exFmt 7200 "a".toList "c".toList
      "b".toList "svc-error-pod".toList).1 (by decide),
   (auto_generate_pod_logs_classification exFmt 7200 "a".toList "c".toList
      "b".toList "svc-warn-service".toList).2.1 (by decide) (by decide),
   (auto_generate_pod_logs_classification exFmt 7200 "a".toList "c".toList
      "b".toList "plain-pod".toList).2.2 (by decide) (by decide)⟩

/-- C4 counterexample: the claim as stated fails for a pod name that
contains BOTH `warn` and `error` (e.g. `error-warn`): it contains
`warn`, yet the synthesized log has a FATAL-level line, because the
`error` branch takes precedence. -/
theorem auto_generate_warn_and_error_overlap :
    "warn".toList <:+: lowerStr "error-warn".toList ∧
    ∃ l ∈ podLogLines exFmt 7200 "a".toList "c".toList "b".toList
      "error-warn".toList, l.lvl = "FATAL".toList := by
  constructor
  · decide
  · refine ⟨⟨exFmt (7200 - 5400 + 20 + 180), "FATAL".toList,
      "Critical error - service unavailable".toList⟩, ?_, rfl⟩
    simp only [podLogLines, List.mem_append]
    refine Or.inl (Or.inr ?_)
    unfold operationalLines
    rw [show containsSub "error".toList (lowerStr "error-warn".toList) = true from
      by decide]
    simp

/-- C6: the recent-activity footer reports the elevated resource figures
(memory 95%, CPU 98%) exactly when the raw pod identifier contains
`error`, and the nominal figures (45%, 25%) exactly otherwise — for
every pod, clock and formatter. -/
theorem footer_resource_numbers (fmt : Nat → Str) (rt : Nat) (pod : Str) :
    ((∃ l ∈ footerLines fmt rt pod, l.msg = "Current memory usage: 95%".toList) ↔
      "error".toList <:+: pod) ∧
    ((∃ l ∈ footerLines fmt rt pod, l.msg = "Current CPU usage: 98%".toList) ↔
      "error".toList <:+: pod) ∧
    ((∃ l ∈ footerLines fmt rt pod, l.msg = "Current memory usage: 45%".toList) ↔
      ¬ "error".toList <:+: pod) ∧
    ((∃ l ∈ footerLines fmt rt pod, l.msg = "Current CPU usage: 25%".toList) ↔
      ¬ "error".toList <:+: pod) := by
  have hkey : ∀ tgt : Str, (∃ l ∈ footerLines fmt rt pod, l.msg = tgt) ↔
      tgt ∈ (footerLines fmt rt pod).map LogLine.msg := by
    intro tgt
    constructor
    · rintro ⟨l, hl, hm⟩
      exact List.mem_map.mpr ⟨l, hl, hm⟩
    · intro hm
      rcases List.mem_map.mp hm with ⟨l, hl, hm⟩
      exact ⟨l, hl, hm⟩
  have hmap : (footerLines fmt rt pod).map LogLine.msg =
      [ "=== Recent Activity Summary ===".toList
      , "Uptime: 1h 28m 15s".toList
      , "Total requests processed: 15,240".toList
      , "Current memory usage: ".toList ++
          (if containsSub "error".toList pod then "95".toList else "45".toList) ++
          "%".toList
      , "Current CPU usage: ".toList ++
          (if containsSub "error".toList pod then "98".toList else "25".toList) ++
          "%".toList
      , "Network I/O: 2.1 MB/s in, 3.4 MB/s out".toList ] := rfl
  by_cases h : "error".toList <:+: pod
  · have hbe : containsSub "error".toList pod = true := by
      unfold containsSub; exact decide_eq_true h
    refine ⟨?_, ?_, ?_, ?_⟩ <;> rw [hkey, hmap, hbe]
    · exact iff_of_true (by decide) h
    · exact iff_of_true (by decide) h
    · exact iff_of_false (by decide) (fun hn => hn h)
    · exact iff_of_false (by decide) (fun hn => hn h)
  · have hbe : containsSub "error".toList pod = false := by
      unfold containsSub; exact decide_eq_false h
    refine ⟨?_, ?_, ?_, ?_⟩ <;> rw [hkey, hmap, hbe]
    · exact iff_of_false (by decide) h
    · exact iff_of_false (by decide) h
    · exact iff_of_true (by decide) h
    · exact iff_of_true (by decide) h

theorem logMetadata_ne_nil (ts src pod app cluster bundle : Str) :
    logMetadata ts src pod app cluster bundle ≠ [] := by
  unfold logMetadata
  repeat apply append_ne_nil_left
  decide

theorem auto_generate_head (fmt : Nat → Str) (now : Nat) (a c b p : Str) :
    ∃ r, auto_generate_pod_logs fmt now a c b p = '[' :: r :=
  ⟨_, rfl⟩

theorem auto_generate_pod_logs_ne_nil (fmt : Nat → Str) (now : Nat) (a c b p : Str) :
    auto_generate_pod_logs fmt now a c b p ≠ [] := by
  obtain ⟨r, hr⟩ := auto_generate_head fmt now a c b p
  rw [hr]
  simp

theorem auto_generate_strip_ne_nil (fmt : Nat → Str) (now : Nat) (a c b p : Str) :
    pyStrip (auto_generate_pod_logs fmt now a c b p) ≠ [] := by
  obtain ⟨r, hr⟩ := auto_generate_head fmt now a c b p
  rw [hr]
  exact pyStrip_ne_nil ⟨'[', by simp, by decide⟩

theorem isEmpty_false_of_ne_nil {s : Str} (h : s ≠ []) : s.isEmpty = false := by
  cases hs : s with
  | nil => exact absurd hs h
  | cons x xs => rfl

/-- C1: for every environment and every request whose four identifiers
are non-empty after stripping, `get_pod_logs` returns a non-empty logs
string (never a bad request): the non-empty metadata banner is prepended
on every resolution path, and the synthesis fallback itself always
produces non-empty content. -/
theorem get_pod_logs_never_empty (st : St) (now : Nat) (A C B P : Str)
    (hA : pyStrip A ≠ []) (hC : pyStrip C ≠ []) (hB : pyStrip B ≠ [])
    (hP : pyStrip P ≠ []) :
    (∃ L, gplLogs (get_pod_logs st now A C B P) = some L ∧ L ≠ []) ∧
    auto_generate_pod_logs st.fmtDT now (pyStrip A) (pyStrip C) (pyStrip B)
      (pyStrip P) ≠ [] := by
  refine ⟨?_, auto_generate_pod_logs_ne_nil _ _ _ _ _ _⟩
  unfold get_pod_logs
  simp only [isEmpty_false_of_ne_nil hA, isEmpty_false_of_ne_nil hC,
    isEmpty_false_of_ne_nil hB, isEmpty_false_of_ne_nil hP, Bool.or_self,
    Bool.or_false, Bool.false_or, Bool.false_eq_true, if_false]
  split
  · next c cs _ =>
    exact ⟨c :: cs, rfl, by simp⟩
  · split
    · exact ⟨_, rfl, append_ne_nil_left (logMetadata_ne_nil _ _ _ _ _ _)⟩
    · exact ⟨_, rfl, append_ne_nil_left (logMetadata_ne_nil _ _ _ _ _ _)⟩

theorem get_pod_logs_never_empty_witness :
    (∃ L, gplLogs (get_pod_logs emptySt 7200 "shop".toList "eu-1".toList
      "smoke".toList "web-001".toList) = some L ∧ L ≠ []) ∧
    auto_generate_pod_logs emptySt.fmtDT 7200 (pyStrip "shop".toList)
      (pyStrip "eu-1".toList) (pyStrip "smoke".toList)
      (pyStrip "web-001".toList) ≠ [] :=
  get_pod_logs_never_empty emptySt 7200 "shop".toList "eu-1".toList
    "smoke".toList "web-001".toList (by decide) (by decide) (by decide) (by decide)

theorem sanitize_slashFree (v : Str) : slashFree (sanitize_filename v) := by
  unfold slashFree sanitize_filename
  split
  · decide
  · intro hmem
    rcases List.mem_map.mp hmem with ⟨d, _, hd⟩
    by_cases hv : validCharB d = true
    · rw [if_pos hv] at hd
      rw [hd] at hv
      exact absurd hv (by decide)
    · rw [if_neg hv] at hd
      exact absurd hd (by decide)

theorem count_pathJoin (a b : Str) :
    (pathJoin a b).count '/' = a.count '/' + 1 + b.count '/' := by
  unfold pathJoin
  rw [List.count_append, List.count_append,
    show ("/".toList : Str).count '/' = 1 from by decide]

theorem patterns_slash_count (sa sc sb sp date : Str)
    (ha : slashFree sa) (hc : slashFree sc) (hb : slashFree sb)
    (hp : slashFree sp) (hd : slashFree date) :
    ∀ pa ∈ logFilePatterns sa sc sb sp date, pa.count '/' = 0 := by
  have za : sa.count '/' = 0 := List.count_eq_zero.mpr ha
  have zc : sc.count '/' = 0 := List.count_eq_zero.mpr hc
  have zb : sb.count '/' = 0 := List.count_eq_zero.mpr hb
  have zp : sp.count '/' = 0 := List.count_eq_zero.mpr hp
  have zd : date.count '/' = 0 := List.count_eq_zero.mpr hd
  have zlog : (".log".toList : Str).count '/' = 0 := by decide
  have zdash : ("-".toList : Str).count '/' = 0 := by decide
  have zund : ("_".toList : Str).count '/' = 0 := by decide
  have zlogs : ("_logs.log".toList : Str).count '/' = 0 := by decide
  have zpod : ("pod_".toList : Str).count '/' = 0 := by decide
  intro pa hpa
  simp only [logFilePatterns, List.mem_cons, List.not_mem_nil, or_false] at hpa
  rcases hpa with rfl | rfl | rfl | rfl | rfl | rfl | rfl | rfl | rfl | rfl <;>
    simp only [List.count_append, za, zc, zb, zp, zd, zlog, zdash, zund, zlogs, zpod]

theorem dirs_slash_count (sa sc sb : Str)
    (ha : slashFree sa) (hc : slashFree sc) (hb : slashFree sb) :
    ∀ d ∈ searchDirectories sa sc sb, d.count '/' ≤ 4 := by
  have za : sa.count '/' = 0 := List.count_eq_zero.mpr ha
  have zc : sc.count '/' = 0 := List.count_eq_zero.mpr hc
  have zb : sb.count '/' = 0 := List.count_eq_zero.mpr hb
  have zbase : (logsBaseDir).count '/' = 2 := by decide
  have zkub : ("kubernetes".toList : Str).count '/' = 0 := by decide
  have zpods : ("pods".toList : Str).count '/' = 0 := by decide
  intro d hd
  simp only [searchDirectories, List.mem_cons, List.not_mem_nil, or_false] at hd
  rcases hd with rfl | rfl | rfl | rfl | rfl | rfl | rfl | rfl | rfl <;>
    simp only [count_pathJoin, za, zc, zb, zbase, zkub, zpods] <;> omega

theorem hier_slash_count (sa sc sb sp : Str)
    (ha : slashFree sa) (hc : slashFree sc) (hb : slashFree sb)
    (hp : slashFree sp) :
    (hierLogPath sa sc sb sp).count '/' = 6 := by
  have za : sa.count '/' = 0 := List.count_eq_zero.mpr ha
  have zc : sc.count '/' = 0 := List.count_eq_zero.mpr hc
  have zb : sb.count '/' = 0 := List.count_eq_zero.mpr hb
  have zp : sp.count '/' = 0 := List.count_eq_zero.mpr hp
  have zbase : (logsBaseDir).count '/' = 2 := by decide
  have zlog : (".log".toList : Str).count '/' = 0 := by decide
  unfold hierLogPath
  simp only [count_pathJoin, List.count_append, za, zc, zb, zp, zbase, zlog]

/-- C9: the probe space of the filesystem search (directory list crossed
with pattern list) never contains the hierarchical persistence path
`logs/{app}/{cluster}/{bundle}/{pod}.log` (it has six slashes, probes at
most five), while the flat persistence path
`logs/pods/{app}-{bundle}-{pod}.log` is probed (directory 9, pattern 4):
of the two files persisted after synthesis, only the flat one can be
found by a later resolution. -/
theorem probe_paths_exclude_hierarchical (A C B P date : Str)
    (hdate : slashFree date) :
    hierLogPath (sanitize_filename A) (sanitize_filename C) (sanitize_filename B)
        (sanitize_filename P) ∉
      probedPaths (sanitize_filename A) (sanitize_filename C) (sanitize_filename B)
        (sanitize_filename P) date ∧
    flatLogPath (sanitize_filename A) (sanitize_filename B) (sanitize_filename P) ∈
      probedPaths (sanitize_filename A) (sanitize_filename C) (sanitize_filename B)
        (sanitize_filename P) date := by
  constructor
  · intro hmem
    rcases List.mem_flatMap.mp hmem with ⟨d, hd, hpath⟩
    rcases List.mem_map.mp hpath with ⟨pa, hpa, heq⟩
    have h1 : (pathJoin d pa).count '/' = d.count '/' + 1 + pa.count '/' :=
      count_pathJoin d pa
    have h2 : pa.count '/' = 0 :=
      patterns_slash_count _ _ _ _ date (sanitize_slashFree A) (sanitize_slashFree C)
        (sanitize_slashFree B) (sanitize_slashFree P) hdate pa hpa
    have h3 : d.count '/' ≤ 4 :=
      dirs_slash_count _ _ _ (sanitize_slashFree A) (sanitize_slashFree C)
        (sanitize_slashFree B) d hd
    have h4 : (hierLogPath (sanitize_filename A) (sanitize_filename C)
        (sanitize_filename B) (sanitize_filename P)).count '/' = 6 :=
      hier_slash_count _ _ _ _ (sanitize_slashFree A) (sanitize_slashFree C)
        (sanitize_slashFree B) (sanitize_slashFree P)
    rw [heq, h4] at h1
    omega
  · apply List.mem_flatMap.mpr
    refine ⟨pathJoin logsBaseDir "pods".toList, by simp [searchDirectories], ?_⟩
    apply List.mem_map.mpr
    exact ⟨sanitize_filename A ++ "-".toList ++ sanitize_filename B ++ "-".toList ++
      sanitize_filename P ++ ".log".toList, by simp [logFilePatterns], rfl⟩

theorem probe_paths_exclude_hierarchical_witness :
    hierLogPath (sanitize_filename "shop".toList) (sanitize_filename "eu-1".toList)
        (sanitize_filename "smoke".toList) (sanitize_filename "web-001".toList) ∉
      probedPaths (sanitize_filename "shop".toList) (sanitize_filename "eu-1".toList)
        (sanitize_filename "smoke".toList) (sanitize_filename "web-001".toList)
        "2025-01-01".toList ∧
    flatLogPath (sanitize_filename "shop".toList) (sanitize_filename "smoke".toList)
        (sanitize_filename "web-001".toList) ∈
      probedPaths (sanitize_filename "shop".toList) (sanitize_filename "eu-1".toList)
        (sanitize_filename "smoke".toList) (sanitize_filename "web-001".toList)
        "2025-01-01".toList :=
  probe_paths_exclude_hierarchical "shop".toList "eu-1".toList "smoke".toList
    "web-001".toList "2025-01-01".toList (by decide)

theorem generate_sample_pods_ne_nil (a b : Str) : generate_sample_pods a b ≠ [] := by
  unfold generate_sample_pods
  simp

theorem get_pods_serves_cached (st1 : St) (t2 : Nat) (A2 C2 B2 : Str)
    (pods : List Pod)
    (hA2 : pyStrip A2 ≠ []) (hC2 : pyStrip C2 ≠ []) (hB2 : pyStrip B2 ≠ [])
    (hlook : cacheLookup st1.cachePods
      (podsKey (sanitize_filename (pyStrip A2)) (sanitize_filename (pyStrip C2))
        (sanitize_filename (pyStrip B2))) t2 = some pods)
    (hpne : pods ≠ []) :
    get_pods st1 t2 A2 C2 B2 = GpResult.fromCache pods := by
  unfold get_pods
  rw [if_neg (by
    simp [isEmpty_false_of_ne_nil hA2, isEmpty_false_of_ne_nil hC2,
      isEmpty_false_of_ne_nil hB2])]
  cases pods with
  | nil => exact absurd rfl hpne
  | cons p ps => simp only [hlook]

theorem get_pods_collision_aux (st0 st1 : St) (t1 t2 : Nat) (A2 C2 B2 : Str)
    (pods : List Pod)
    (hA2 : pyStrip A2 ≠ []) (hC2 : pyStrip C2 ≠ []) (hB2 : pyStrip B2 ≠ [])
    (hcp : st1.cachePods = cacheInsert st0.cachePods
      (podsKey (sanitize_filename (pyStrip A2)) (sanitize_filename (pyStrip C2))
        (sanitize_filename (pyStrip B2))) pods (t1 + 120))
    (ht : t2 < t1 + 120) (hpne : pods ≠ []) :
    get_pods st1 t2 A2 C2 B2 = GpResult.fromCache pods := by
  have hlook : cacheLookup st1.cachePods
      (podsKey (sanitize_filename (pyStrip A2)) (sanitize_filename (pyStrip C2))
        (sanitize_filename (pyStrip B2))) t2 = some pods := by
    rw [hcp]
    unfold cacheLookup cacheInsert
    rw [List.find?_cons_of_pos _ (by simp)]
    dsimp only
    rw [if_pos ht]
  exact get_pods_serves_cached st1 t2 A2 C2 B2 pods hA2 hC2 hB2 hlook hpne

/-- C10: `get_pods` builds its cache key only from the sanitized
identifiers while the config lookup uses the raw ones: any two valid
requests whose raw (app, cluster, bundle) triples sanitize to the same
strings share one cache key, so a second request within the two-minute
TTL is served the list cached by the first — whatever the pods-config
would have said for the second raw triple. -/
theorem get_pods_cache_key_collision (st0 : St) (t1 t2 : Nat)
    (A1 C1 B1 A2 C2 B2 : Str) (pods : List Pod) (st1 : St)
    (hA2 : pyStrip A2 ≠ []) (hC2 : pyStrip C2 ≠ []) (hB2 : pyStrip B2 ≠ [])
    (hsa : sanitize_filename (pyStrip A1) = sanitize_filename (pyStrip A2))
    (hsc : sanitize_filename (pyStrip C1) = sanitize_filename (pyStrip C2))
    (hsb : sanitize_filename (pyStrip B1) = sanitize_filename (pyStrip B2))
    (h1 : get_pods st0 t1 A1 C1 B1 = GpResult.ok pods st1)
    (ht : t2 < t1 + 120) :
    get_pods st1 t2 A2 C2 B2 = GpResult.fromCache pods := by
  unfold get_pods at h1
  by_cases hbad : ((pyStrip A1).isEmpty || (pyStrip C1).isEmpty ||
      (pyStrip B1).isEmpty) = true
  · rw [if_pos hbad] at h1
    simp at h1
  · rw [if_neg hbad] at h1
    rcases hcl : cacheLookup st0.cachePods
        (podsKey (sanitize_filename (pyStrip A1)) (sanitize_filename (pyStrip C1))
          (sanitize_filename (pyStrip B1))) t1 with - | v
    · simp only [hcl] at h1
      injection h1 with hpods hst
      have hpne : pods ≠ [] := by
        rw [← hpods]
        split
        · exact generate_sample_pods_ne_nil _ _
        · next hcond =>
          intro hnil
          rw [hnil] at hcond
          exact hcond rfl
      have hcp : st1.cachePods = cacheInsert st0.cachePods
          (podsKey (sanitize_filename (pyStrip A2)) (sanitize_filename (pyStrip C2))
            (sanitize_filename (pyStrip B2))) pods (t1 + 120) := by
        rw [← hst, ← hsa, ← hsc, ← hsb]
        dsimp only
        rw [hpods]
      exact get_pods_collision_aux st0 st1 t1 t2 A2 C2 B2 pods hA2 hC2 hB2 hcp
        ht hpne
    · rcases v with - | ⟨p, ps⟩
      · simp only [hcl] at h1
        injection h1 with hpods hst
        have hpne : pods ≠ [] := by
          rw [← hpods]
          split
          · exact generate_sample_pods_ne_nil _ _
          · next hcond =>
            intro hnil
            rw [hnil] at hcond
            exact hcond rfl
        have hcp : st1.cachePods = cacheInsert st0.cachePods
            (podsKey (sanitize_filename (pyStrip A2)) (sanitize_filename (pyStrip C2))
              (sanitize_filename (pyStrip B2))) pods (t1 + 120) := by
          rw [← hst, ← hsa, ← hsc, ← hsb]
          dsimp only
          rw [hpods]
        exact get_pods_collision_aux st0 st1 t1 t2 A2 C2 B2 pods hA2 hC2 hB2 hcp
          ht hpne
      · simp only [hcl] at h1
        simp at h1

theorem get_pods_cache_key_collision_witness :
    get_pods c10exSt1 50 "shop?a".toList "eu".toList "smoke".toList =
      GpResult.fromCache c10exPods :=
  get_pods_cache_key_collision emptySt 0 50 "shop!a".toList "eu".toList
    "smoke".toList "shop?a".toList "eu".toList "smoke".toList c10exPods c10exSt1
    (by decide) (by decide) (by decide) (by decide) (by decide) (by decide)
    rfl (by decide)

theorem innerSearch_all_none (st : St) (dir : Str)
    (hfs : ∀ pa, st.fs (pathJoin dir pa) = none) :
    ∀ pats acc, innerSearch st dir pats acc = (acc, none) := by
  intro pats
  induction pats with
  | nil => intro acc; rfl
  | cons p ps ih =>
    intro acc
    simp only [innerSearch, hfs p]
    exact ih acc

theorem outerSearch_all_none (st : St) (pats : List Str)
    (hfs : ∀ p, st.fs p = none) :
    ∀ dirs, outerSearch st pats dirs (none, none) = (none, none) := by
  intro dirs
  induction dirs with
  | nil => rfl
  | cons d ds ih =>
    simp only [outerSearch, innerSearch_all_none st d (fun pa => hfs _) pats none]
    split
    · exact ih
    · exact ih

theorem innerSearch_miss (st : St) (dir : Str) (tgt : Str) :
    ∀ pats, (∀ pa ∈ pats, pathJoin dir pa ≠ tgt → st.fs (pathJoin dir pa) = none) →
      (∀ pa ∈ pats, pathJoin dir pa ≠ tgt) →
      innerSearch st dir pats none = (none, none) := by
  intro pats
  induction pats with
  | nil => intro _ _; rfl
  | cons p ps ih =>
    intro hfs hall
    simp only [innerSearch, hfs p (by simp) (hall p (by simp))]
    exact ih (fun pa hpa => hfs pa (by simp [hpa])) (fun pa hpa => hall pa (by simp [hpa]))

theorem innerSearch_hit (st : St) (dir : Str) (tgt s : Str)
    (htgt : st.fs tgt = some (FileRead.content s)) (hs1 : s ≠ [])
    (hs2 : pyStrip s ≠ []) :
    ∀ pats, (∀ pa ∈ pats, pathJoin dir pa ≠ tgt → st.fs (pathJoin dir pa) = none) →
      (∃ pa ∈ pats, pathJoin dir pa = tgt) →
      innerSearch st dir pats none = (some s, some tgt) := by
  intro pats
  induction pats with
  | nil =>
    rintro _ ⟨pa, hpa, -⟩
    cases hpa
  | cons p ps ih =>
    rintro hfs ⟨pa, hpa, heq⟩
    by_cases hp : pathJoin dir p = tgt
    · simp only [innerSearch, hp, htgt, isEmpty_false_of_ne_nil hs1,
        isEmpty_false_of_ne_nil hs2, Bool.false_eq_true, if_false]
    · simp only [innerSearch, hfs p (by simp) hp]
      apply ih (fun pa hpa => hfs pa (by simp [hpa]))
      rcases List.mem_cons.mp hpa with rfl | hmem
      · exact absurd heq hp
      · exact ⟨pa, hmem, heq⟩

theorem outerSearch_hit (st : St) (pats : List Str) (tgt s : Str)
    (htgt : st.fs tgt = some (FileRead.content s)) (hs1 : s ≠ [])
    (hs2 : pyStrip s ≠ []) :
    ∀ dirs, (∀ d ∈ dirs, ∀ pa ∈ pats, pathJoin d pa ≠ tgt →
        st.fs (pathJoin d pa) = none) →
      (∃ d ∈ dirs, st.dirExists d = true ∧ ∃ pa ∈ pats, pathJoin d pa = tgt) →
      outerSearch st pats dirs (none, none) = (some s, some tgt) := by
  intro dirs
  induction dirs with
  | nil =>
    rintro _ ⟨d, hd, -⟩
    cases hd
  | cons d ds ih =>
    rintro hfs ⟨d0, hd0, hex0, hpa0⟩
    by_cases hde : st.dirExists d = true
    · by_cases hhit : ∃ pa ∈ pats, pathJoin d pa = tgt
      · simp only [outerSearch, hde, if_true,
          innerSearch_hit st d tgt s htgt hs1 hs2 pats
            (fun pa hpa h => hfs d (by simp) pa hpa h) hhit]
      · simp only [outerSearch, hde, if_true,
          innerSearch_miss st d tgt pats
            (fun pa hpa h => hfs d (by simp) pa hpa h)
            (fun pa hpa hne => hhit ⟨pa, hpa, hne⟩)]
        apply ih (fun d' hd' => hfs d' (by simp [hd']))
        rcases List.mem_cons.mp hd0 with rfl | hmem
        · exact absurd hpa0 hhit
        · exact ⟨d0, hmem, hex0, hpa0⟩
    · have hde' : st.dirExists d = false := by
        cases hdd : st.dirExists d
        · rfl
        · exact absurd hdd hde
      simp only [outerSearch, hde', Bool.false_eq_true, if_false]
      apply ih (fun d' hd' => hfs d' (by simp [hd']))
      rcases List.mem_cons.mp hd0 with rfl | hmem
      · rw [hde'] at hex0
        cases hex0
      · exact ⟨d0, hmem, hex0, hpa0⟩

theorem auto_save_fs_flat (st : St) (sa sc sb sp content : Str) :
    (auto_save_generated_logs st sa sc sb sp content).fs (flatLogPath sa sb sp) =
      some (FileRead.content content) := by
  unfold auto_save_generated_logs
  simp

theorem auto_save_fs_other (st : St) (sa sc sb sp content q : Str)
    (h1 : q ≠ flatLogPath sa sb sp) (h2 : q ≠ hierLogPath sa sc sb sp) :
    (auto_save_generated_logs st sa sc sb sp content).fs q = st.fs q := by
  unfold auto_save_generated_logs
  simp only [beq_eq_false_iff_ne.mpr h1, beq_eq_false_iff_ne.mpr h2,
    Bool.false_eq_true, if_false]

theorem auto_save_cacheLogs (st : St) (sa sc sb sp content : Str) :
    (auto_save_generated_logs st sa sc sb sp content).cacheLogs = st.cacheLogs := rfl

theorem auto_save_dir_pods (st : St) (sa sc sb sp content : Str) :
    (auto_save_generated_logs st sa sc sb sp content).dirExists
      (pathJoin logsBaseDir "pods".toList) = true := by
  unfold auto_save_generated_logs
  simp

/-- On a fresh state (no files on disk, no kubectl, empty log cache), a
valid `get_pod_logs` request reaches the synthesis stage: it returns the
banner plus synthesized content, tagged `auto-generated`, and the
post-state persists the synthesized file and caches the response for 30
seconds. -/
theorem get_pod_logs_fresh_synthesizes (st : St) (now : Nat) (A C B P : Str)
    (hA : pyStrip A ≠ []) (hC : pyStrip C ≠ []) (hB : pyStrip B ≠ [])
    (hP : pyStrip P ≠ []) (hfs : ∀ p, st.fs p = none) (hk : st.kubectl = none)
    (hcache : st.cacheLogs = []) :
    get_pod_logs st now A C B P = GplResult.ok
      (logMetadata (st.fmtDT now) "auto-generated".toList (pyStrip P) (pyStrip A)
          (pyStrip C) (pyStrip B) ++
        auto_generate_pod_logs st.fmtDT now (pyStrip A) (pyStrip C) (pyStrip B)
          (pyStrip P))
      (some "auto-generated".toList)
      { auto_save_generated_logs st (sanitize_filename (pyStrip A))
          (sanitize_filename (pyStrip C)) (sanitize_filename (pyStrip B))
          (sanitize_filename (pyStrip P))
          (auto_generate_pod_logs st.fmtDT now (pyStrip A) (pyStrip C) (pyStrip B)
            (pyStrip P)) with
        cacheLogs := cacheInsert st.cacheLogs
            (podLogsKey (sanitize_filename (pyStrip A))
              (sanitize_filename (pyStrip C)) (sanitize_filename (pyStrip B))
              (sanitize_filename (pyStrip P)))
            (logMetadata (st.fmtDT now) "auto-generated".toList (pyStrip P)
                (pyStrip A) (pyStrip C) (pyStrip B) ++
              auto_generate_pod_logs st.fmtDT now (pyStrip A) (pyStrip C)
                (pyStrip B) (pyStrip P))
            (now + 30) } := by
  unfold get_pod_logs
  simp only [isEmpty_false_of_ne_nil hA, isEmpty_false_of_ne_nil hC,
    isEmpty_false_of_ne_nil hB, isEmpty_false_of_ne_nil hP, Bool.or_self,
    Bool.or_false, Bool.false_or, Bool.false_eq_true, if_false, hcache]
  rw [show cacheLookup ([] : List (Str × Str × Nat))
    (podLogsKey (sanitize_filename (pyStrip A)) (sanitize_filename (pyStrip C))
      (sanitize_filename (pyStrip B)) (sanitize_filename (pyStrip P))) now = none
    from rfl]
  simp only [outerSearch_all_none st _ hfs, hk]
  simp only [pyTruthyO, Bool.false_eq_true, if_false, auto_save_cacheLogs, hcache]

/-- C2 (amended): on a fresh deployment, a first valid call synthesizes
and persists; once the first call's 30-second cached response has
expired, a second identical call resolves via the FILESYSTEM — its
source is the flat file persisted by the first call's synthesis — and it
does not synthesize or persist again (the filesystem is unchanged). -/
theorem get_pod_logs_idempotent_after_ttl (st : St) (now1 now2 : Nat)
    (A C B P : Str)
    (hA : pyStrip A ≠ []) (hC : pyStrip C ≠ []) (hB : pyStrip B ≠ [])
    (hP : pyStrip P ≠ []) (hfs : ∀ p, st.fs p = none) (hk : st.kubectl = none)
    (hcache : st.cacheLogs = []) (hgap : now1 + 30 ≤ now2)
    (hdate : slashFree (st.dateFor now2)) :
    ∃ L1 st1, get_pod_logs st now1 A C B P =
        GplResult.ok L1 (some "auto-generated".toList) st1 ∧
      ∃ L2 st2, get_pod_logs st1 now2 A C B P =
        GplResult.ok L2 (some (flatLogPath (sanitize_filename (pyStrip A))
          (sanitize_filename (pyStrip B)) (sanitize_filename (pyStrip P)))) st2 ∧
        st2.fs = st1.fs := by
  refine ⟨_, _,
    get_pod_logs_fresh_synthesizes st now1 A C B P hA hC hB hP hfs hk hcache, ?_⟩
  set sa := sanitize_filename (pyStrip A) with hsadef
  set sc := sanitize_filename (pyStrip C) with hscdef
  set sb := sanitize_filename (pyStrip B) with hsbdef
  set sp := sanitize_filename (pyStrip P) with hspdef
  set synth := auto_generate_pod_logs st.fmtDT now1 (pyStrip A) (pyStrip C)
    (pyStrip B) (pyStrip P) with hsynthdef
  set final := logMetadata (st.fmtDT now1) "auto-generated".toList (pyStrip P)
    (pyStrip A) (pyStrip C) (pyStrip B) ++ synth with hfinaldef
  set ST1 : St := { auto_save_generated_logs st sa sc sb sp synth with
    cacheLogs := cacheInsert st.cacheLogs (podLogsKey sa sc sb sp) final
        (now1 + 30) } with hST1
  have hsa' : slashFree sa := by rw [hsadef]; exact sanitize_slashFree _
  have hsc' : slashFree sc := by rw [hscdef]; exact sanitize_slashFree _
  have hsb' : slashFree sb := by rw [hsbdef]; exact sanitize_slashFree _
  have hsp' : slashFree sp := by rw [hspdef]; exact sanitize_slashFree _
  have hlook2b : cacheLookup (cacheInsert st.cacheLogs (podLogsKey sa sc sb sp)
      final (now1 + 30)) (podLogsKey sa sc sb sp) now2 = none := by
    rw [hcache]
    unfold cacheInsert cacheLookup
    rw [List.find?_cons_of_pos _ (by simp)]
    dsimp only
    rw [if_neg (by omega)]
  have hlook2 : cacheLookup ST1.cacheLogs (podLogsKey sa sc sb sp) now2 = none := by
    rw [hST1]
    exact hlook2b
  have hdf2 : (auto_save_generated_logs st sa sc sb sp synth).dateFor =
    st.dateFor := rfl
  have hsearch : outerSearch ST1 (logFilePatterns sa sc sb sp (st.dateFor now2))
      (searchDirectories sa sc sb) (none, none) =
      (some synth, some (flatLogPath sa sb sp)) := by
    rw [hST1]
    refine outerSearch_hit _ _ _ _ ?_ ?_ ?_ _ ?_ ?_
    · exact auto_save_fs_flat st sa sc sb sp synth
    · rw [hsynthdef]
      exact auto_generate_pod_logs_ne_nil _ _ _ _ _ _
    · rw [hsynthdef]
      exact auto_generate_strip_ne_nil _ _ _ _ _ _
    · intro d hd pa hpa hne
      have hnh : pathJoin d pa ≠ hierLogPath sa sc sb sp := by
        intro he
        have h2 : pa.count '/' = 0 :=
          patterns_slash_count sa sc sb sp (st.dateFor now2) hsa' hsc' hsb' hsp'
            hdate pa hpa
        have h3 : d.count '/' ≤ 4 := dirs_slash_count sa sc sb hsa' hsc' hsb' d hd
        have h4 : (hierLogPath sa sc sb sp).count '/' = 6 :=
          hier_slash_count sa sc sb sp hsa' hsc' hsb' hsp'
        have h5 := count_pathJoin d pa
        rw [he, h4] at h5
        omega
      rw [auto_save_fs_other st sa sc sb sp synth _ hne hnh]
      exact hfs _
    · exact ⟨pathJoin logsBaseDir "pods".toList, by simp [searchDirectories],
        auto_save_dir_pods st sa sc sb sp synth,
        sa ++ "-".toList ++ sb ++ "-".toList ++ sp ++ ".log".toList,
        by simp [logFilePatterns], rfl⟩
  unfold get_pod_logs
  simp only [isEmpty_false_of_ne_nil hA, isEmpty_false_of_ne_nil hC,
    isEmpty_false_of_ne_nil hB, isEmpty_false_of_ne_nil hP, Bool.or_self,
    Bool.or_false, Bool.false_or, Bool.false_eq_true, if_false]
  simp only [← hsadef, ← hscdef, ← hsbdef, ← hspdef, hdf2, hlook2, hlook2b,
    hsearch]
  exact ⟨_, _, rfl, rfl⟩

theorem get_pod_logs_idempotent_after_ttl_witness :
    ∃ L1 st1, get_pod_logs emptySt 100 "shop".toList "eu-1".toList
        "smoke".toList "web".toList =
        GplResult.ok L1 (some "auto-generated".toList) st1 ∧
      ∃ L2 st2, get_pod_logs st1 200 "shop".toList "eu-1".toList
        "smoke".toList "web".toList =
        GplResult.ok L2 (some (flatLogPath
          (sanitize_filename (pyStrip "shop".toList))
          (sanitize_filename (pyStrip "smoke".toList))
          (sanitize_filename (pyStrip "web".toList)))) st2 ∧
        st2.fs = st1.fs :=
  get_pod_logs_idempotent_after_ttl emptySt 100 200 "shop".toList "eu-1".toList
    "smoke".toList "web".toList (by decide) (by decide) (by decide) (by decide)
    (fun _ => rfl) rfl rfl (by omega) (by decide)

/-- C2 counterexample: the claim as stated is false for an immediate
second call.  Ten seconds after the first (synthesizing) call, the
second call is answered from the 30-second cache — a cache hit, NOT a
record resolved from the filesystem. -/
theorem get_pod_logs_second_call_within_ttl :
    (∃ L, c2exCall2 = GplResult.fromCache L) ∧
    ∀ L src st2, c2exCall2 ≠ GplResult.ok L src st2 := by
  have h : ∃ L, c2exCall2 = GplResult.fromCache L := ⟨_, rfl⟩
  refine ⟨h, ?_⟩
  rcases h with ⟨L, hL⟩
  intro L2 src st2 hok
  rw [hL] at hok
  exact GplResult.noConfusion hok
